import Mathlib

/-!
Shallow embedding of `predictor/database_functions/peptide_extractor.py`
(NetCleave).  Tables are ordered lists of rows; a row is an association
list from column name to string value (the pandas dataframe after loading,
where every cell is a string).  Raw tables, as they come out of the CSV
reader before `dropna`, have optional cells: `none` models a pandas `NaN`.
Python exceptions that the claims exercise are modelled with `Except`.
-/

namespace NetCleave

/-- A loaded dataframe row: column name ↦ string cell value. -/
abbrev Row := List (String × String)

/-- A loaded dataframe: ordered rows, positional (dense 0-based) indexing. -/
abbrev Table := List Row

/-- A raw row as produced by the CSV reader: a `none` cell models `NaN`
(pandas reads an empty field as `NaN`). -/
abbrev RawRow := List (String × Option String)

/-- A raw dataframe before `dropna`. -/
abbrev RawTable := List RawRow

/-- Cell access `row[c]`.  The source raises `KeyError` on a column that is
absent from the dataframe; conditions are only ever applied to columns the
loader retained, so absent-column access is out of scope and defaults to
the empty string. -/
def rowGet (r : Row) (c : String) : String := (List.lookup c r).getD ""

/-- `subPrefixOf pat s` : `pat` is a prefix of `s` (on character lists). -/
def subPrefixOf : List Char → List Char → Bool
  | [], _ => true
  | _ :: _, [] => false
  | a :: as, b :: bs => a == b && subPrefixOf as bs

/-- `containsSub pat s` : `pat` occurs in `s` as a contiguous sublist.
Models Python `pat in s` / `Series.str.contains(pat, regex=False)`:
literal substring search, no pattern semantics; the empty pattern occurs
in every string. -/
def containsSub (pat : List Char) : List Char → Bool
  | [] => pat.isEmpty
  | c :: cs => subPrefixOf pat (c :: cs) || containsSub pat cs

/-- String-level literal substring test: `strContains s v` is Python
`v in s`. -/
def strContains (s v : String) : Bool := containsSub v.data s.data

/-- The second component of a condition pair (`condition_values[1]`):
a single string for `contains`/`not_contains`/`match`/`not_match`,
a list of strings for `is_in`. -/
inductive CondOperand where
  | str : String → CondOperand
  | strs : List String → CondOperand
  deriving DecidableEq, Repr

/-- Python exceptions reachable in the modelled fragment.
`typeError` models the `TypeError` pandas raises when an operand of the
wrong shape reaches `str.contains` (list where a string is expected) or
`isin` (plain string where a list-like is expected); `attributeError`
models `AttributeError` from calling `.keys()` on `None`. -/
inductive PyError where
  | typeError : PyError
  | attributeError : PyError
  deriving DecidableEq, Repr

/-- One pass of the condition loop body of `apply_conditions`, for a
single entry `condition_type ↦ (condition_search, condition_value)`.
The source tests the operator with five independent `if` statements; the
tested strings are pairwise distinct so at most one branch fires, and the
chain below is the same function.  An operator equal to none of the five
strings leaves the dataframe untouched.  Equality `df[c] == v` compared
against a list operand is modelled as an error (pandas raises unless the
list length happens to equal the row count, a shape no caller produces). -/
def applyOp (op : String) (v : CondOperand) (col : String) (df : Table) :
    Except PyError Table :=
  if op == "contains" then
    match v with
    | .str s => .ok (df.filter fun r => strContains (rowGet r col) s)
    | .strs _ => .error .typeError
  else if op == "not_contains" then
    match v with
    | .str s => .ok (df.filter fun r => !(strContains (rowGet r col) s))
    | .strs _ => .error .typeError
  else if op == "match" then
    match v with
    | .str s => .ok (df.filter fun r => rowGet r col == s)
    | .strs _ => .error .typeError
  else if op == "not_match" then
    match v with
    | .str s => .ok (df.filter fun r => rowGet r col != s)
    | .strs _ => .error .typeError
  else if op == "is_in" then
    match v with
    | .strs l => .ok (df.filter fun r => l.contains (rowGet r col))
    | .str _ => .error .typeError
  else
    .ok df

/-- A condition specification: the entries of `conditions_dictionary` in
insertion order.  `none` marks a column required for loading only. -/
abbrev CondList := List (String × Option (String × CondOperand))

/-- `apply_conditions(df, conditions_dictionary)` : fold the condition
entries over the dataframe in insertion order, skipping `None`-valued
entries, threading the progressively narrowed dataframe. -/
def apply_conditions (df : Table) : CondList → Except PyError Table
  | [] => .ok df
  | (_, none) :: rest => apply_conditions df rest
  | (col, some (op, v)) :: rest =>
    match applyOp op v col df with
    | .ok df2 => apply_conditions df2 rest
    | .error e => .error e

/-- A word character of the regex class `[\w]` (the inputs of interest are
ASCII, where `\w` is a letter, a digit or an underscore). -/
def isWordChar (c : Char) : Bool := c.isAlphanum || c == '_'

/-- The fixed text of the replacement template
`http://www.uniprot.org/uniprot/\1`. -/
def uriPrefix : String := "http://www.uniprot.org/uniprot/"

/-- Emit one completed match of `([\w]+)` through the replacement
template: a nonempty run of word characters is replaced by
`uriPrefix ++ run`; an empty run is no match and emits nothing. -/
def flushRun (run : List Char) : List Char :=
  if run.isEmpty then [] else uriPrefix.data ++ run

/-- Scanner for `re.sub("([\w]+)", "http://www.uniprot.org/uniprot/\1", s)`:
`run` is the word-character run read so far; a non-word character closes
the current run and is copied through unchanged. -/
def reSubAux (run : List Char) : List Char → List Char
  | [] => flushRun run
  | c :: cs =>
    if isWordChar c then reSubAux (run ++ [c]) cs
    else flushRun run ++ (c :: reSubAux [] cs)

/-- The generic-mode `uniprot_id` rewrite
`Series.replace(to_replace="([\w]+)", value="http://www.uniprot.org/uniprot/\1", regex=True)`:
pandas substitutes via `re.sub`, so EVERY maximal word-character run in
the cell is wrapped, not only a leading one. -/
def uniprotSub (s : String) : String := ⟨reSubAux [] s.data⟩

/-- Splitter for Python `str.split()` (no separator): split on runs of
whitespace, discarding empty pieces; `acc` is the token read so far. -/
def pySplitAux (acc : List Char) : List Char → List String
  | [] => if acc.isEmpty then [] else [⟨acc⟩]
  | c :: cs =>
    if c.isWhitespace then
      if acc.isEmpty then pySplitAux [] cs else ⟨acc⟩ :: pySplitAux [] cs
    else pySplitAux (acc ++ [c]) cs

/-- Python `s.split()`. -/
def pySplitWs (s : String) : List String := pySplitAux [] s.data

/-- `Series.str.split().str[0]` on one cell: the first whitespace-delimited
token, or `NaN` (`none`) when the cell is empty or all whitespace. -/
def firstToken (s : String) : Option String := (pySplitWs s).head?

/-- All-or-nothing view of a raw row: `some` of its string cells when no
cell is `NaN`, else `none`. -/
def rowAllSome : RawRow → Option Row
  | [] => some []
  | (_, none) :: _ => none
  | (c, some v) :: rest => (rowAllSome rest).map (fun t => (c, v) :: t)

/-- `df.dropna()` followed by `df.reset_index(drop=True)`: drop every row
holding a `NaN` in any column; the survivors keep their relative order and
positional indexing over the resulting list is dense and 0-based.  After
the drop every cell is a string, which the all-or-nothing row view makes
explicit. -/
def dropna (t : RawTable) : Table := t.filterMap rowAllSome

/-- The per-row column selection of
`read_csv(..., usecols=list(conditions_dictionary.keys()))`: keep the
cells of the columns named as condition keys, in file order. -/
def usecolsRow (cs : CondList) (r : RawRow) : RawRow :=
  r.filter fun cv => (cs.map Prod.fst).contains cv.1

/-- `df.rename(columns={"Description": "peptide_sequence", "Parent.Protein.IRI": "uniprot_id"})`
on one cell. -/
def renameCell (cv : String × Option String) : String × Option String :=
  if cv.1 == "Description" then ("peptide_sequence", cv.2)
  else if cv.1 == "Parent.Protein.IRI" then ("uniprot_id", cv.2)
  else cv

/-- `df["peptide_sequence"] = df["peptide_sequence"].str.split().str[0]`
on one cell: a `NaN` cell stays `NaN`, a whitespace-only string becomes
`NaN`. -/
def splitCell (cv : String × Option String) : String × Option String :=
  if cv.1 == "peptide_sequence" then (cv.1, cv.2.bind firstToken) else cv

/-- The structured-mode (IEDB) row pipeline before `dropna`: column
selection, renaming, then the peptide-sequence split. -/
def iedbPrepRow (cs : CondList) (r : RawRow) : RawRow :=
  (((usecolsRow cs r).map renameCell).map splitCell)

/-- The generic-mode rewrite of one cell:
only the `uniprot_id` column is substituted; a `NaN` cell is left alone
(pandas `replace` only rewrites string values). -/
def subCell (cv : String × Option String) : String × Option String :=
  if cv.1 == "uniprot_id" then (cv.1, cv.2.map uniprotSub) else cv

/-- The generic-mode row pipeline before `dropna`. -/
def genericPrepRow (r : RawRow) : RawRow := r.map subCell

/-- `generate_df` in IEDB mode, after the condition dictionary has been
found non-`None`. -/
def generate_df_iedb (cs : CondList) (raw : RawTable) : Table :=
  dropna (raw.map (iedbPrepRow cs))

/-- `generate_df` in generic mode. -/
def generate_df_generic (raw : RawTable) : Table :=
  dropna (raw.map genericPrepRow)

/-- `generate_df(input_file_path, conditions_dictionary, iedb)`.  In IEDB
mode the column list `list(conditions_dictionary.keys())` is built before
any row is read; with `conditions_dictionary=None` that call raises
`AttributeError` (`None` has no `.keys()`), so the error is independent of
the file contents. -/
def generate_df (raw : RawTable) (conds : Option CondList) (iedb : Bool) :
    Except PyError Table :=
  if iedb then
    match conds with
    | none => .error .attributeError
    | some cs => .ok (generate_df_iedb cs raw)
  else
    .ok (generate_df_generic raw)

/-- Keep-first deduplication scanner of `df.drop_duplicates(keep="first")`
on (peptide, uniprot) pairs; `seen` collects the pairs already kept. -/
def dedupGo (seen : List (String × String)) :
    List (String × String) → List (String × String)
  | [] => []
  | x :: xs =>
    if seen.contains x then dedupGo seen xs else x :: dedupGo (x :: seen) xs

/-- `df.drop_duplicates(keep="first")` on the projected two-column frame. -/
def dedupKeepFirst (l : List (String × String)) : List (String × String) :=
  dedupGo [] l

/-- Splitter for Python `str.split("/")`: pieces between `/` separators,
empty pieces kept; `acc` is the piece read so far. -/
def splitSlashAux (acc : List Char) : List Char → List String
  | [] => [⟨acc⟩]
  | c :: cs =>
    if c == '/' then ⟨acc⟩ :: splitSlashAux [] cs
    else splitSlashAux (acc ++ [c]) cs

/-- `Series.str.split("/").str[-1]`: the substring after the last `/`;
a value with no `/` is returned whole. -/
def lastSegment (u : String) : String := (splitSlashAux [] u.data).getLastD ""

/-- Insertion into a sorted list of strings, for the sorted group keys of
pandas `groupby` (which sorts keys ascending by default). -/
def insertSorted (s : String) : List String → List String
  | [] => [s]
  | x :: xs => if s < x then s :: x :: xs else x :: insertSorted s xs

/-- Ascending insertion sort on strings. -/
def sortStrings : List String → List String
  | [] => []
  | x :: xs => insertSorted x (sortStrings xs)

/-- First-occurrence deduplication of a key list. -/
def dedupStrGo (seen : List String) : List String → List String
  | [] => []
  | x :: xs =>
    if seen.contains x then dedupStrGo seen xs
    else x :: dedupStrGo (x :: seen) xs

/-- `groupby("uniprot_id")` key set: the distinct second components, in
sorted order. -/
def groupKeys (l : List (String × String)) : List String :=
  sortStrings (dedupStrGo [] (l.map Prod.snd))

/-- One `groupby` group: the peptide sequences carrying the given uniprot
code, in dataframe order (`apply(list)` keeps the original row order). -/
def groupValues (k : String) (l : List (String × String)) : List String :=
  (l.filter fun pu => pu.2 == k).map Prod.fst

/-- `groupby("uniprot_id")["peptide_sequence"].apply(list).to_dict()`. -/
def groupbyToDict (l : List (String × String)) : List (String × List String) :=
  (groupKeys l).map fun k => (k, groupValues k l)

/-- `create_dictionary(df)` : project to (peptide_sequence, uniprot_id),
deduplicate the full pairs keeping the first occurrence, THEN rewrite the
uniprot value to its trailing path segment, then group peptides by code.
The deduplication happens on the pre-rewrite pairs, so two different URIs
with the same trailing segment both survive it. -/
def create_dictionary (df : Table) : List (String × List String) :=
  let pairs := df.map fun r => (rowGet r "peptide_sequence", rowGet r "uniprot_id")
  let deduped := dedupKeepFirst pairs
  let coded := deduped.map fun pu => (pu.1, lastSegment pu.2)
  groupbyToDict coded

/-- `merge_peptide_data(dict1, dict2)` = `dict(dict1, **dict2)`: the keys
of `dict1` in order, each with `dict2`'s value when `dict2` also binds the
key, followed by the entries of `dict2` whose keys are new. -/
def merge_peptide_data (d1 d2 : List (String × List String)) :
    List (String × List String) :=
  (d1.map fun kv => (kv.1, (List.lookup kv.1 d2).getD kv.2)) ++
    d2.filter fun kv => (List.lookup kv.1 d1).isNone

/-- `dict.items()` on the condition argument: `None` has no `.items()`. -/
def condsItems : Option CondList → Except PyError CondList
  | none => .error .attributeError
  | some cs => .ok cs

/-- `extract_peptide_data(input_file_path, conditions_dictionary, iedb)`:
the orchestrator.  In IEDB mode: load, filter, reduce; in generic mode:
load, reduce. -/
def extract_peptide_data (raw : RawTable) (conds : Option CondList)
    (iedb : Bool) : Except PyError (List (String × List String)) :=
  if iedb then do
    let df ← generate_df raw conds true
    let cs ← condsItems conds
    let df_filtered ← apply_conditions df cs
    pure (create_dictionary df_filtered)
  else do
    let df_filtered ← generate_df raw conds false
    pure (create_dictionary df_filtered)

/-! Helper lemmas about the Row Filter. -/

theorem applyOp_unrecognized (op : String) (v : CondOperand) (col : String)
    (df : Table) (h1 : op ≠ "contains") (h2 : op ≠ "not_contains")
    (h3 : op ≠ "match") (h4 : op ≠ "not_match") (h5 : op ≠ "is_in") :
    applyOp op v col df = .ok df := by
  simp [applyOp, h1, h2, h3, h4, h5]

theorem applyOp_shape (op : String) (v : CondOperand) (col : String) :
    (∀ df : Table, applyOp op v col df = .error .typeError) ∨
    (∃ p : Row → Bool, ∀ df : Table, applyOp op v col df = .ok (df.filter p)) := by
  by_cases h1 : op = "contains"
  · cases v with
    | str s =>
      exact .inr ⟨fun r => strContains (rowGet r col) s, fun df => by
        simp [applyOp, h1]⟩
    | strs l => exact .inl fun df => by simp [applyOp, h1]
  · by_cases h2 : op = "not_contains"
    · cases v with
      | str s =>
        exact .inr ⟨fun r => !(strContains (rowGet r col) s), fun df => by
          simp [applyOp, h1, h2]⟩
      | strs l => exact .inl fun df => by simp [applyOp, h1, h2]
    · by_cases h3 : op = "match"
      · cases v with
        | str s =>
          exact .inr ⟨fun r => rowGet r col == s, fun df => by
            simp [applyOp, h1, h2, h3]⟩
        | strs l => exact .inl fun df => by simp [applyOp, h1, h2, h3]
      · by_cases h4 : op = "not_match"
        · cases v with
          | str s =>
            exact .inr ⟨fun r => rowGet r col != s, fun df => by
              simp [applyOp, h1, h2, h3, h4]⟩
          | strs l => exact .inl fun df => by simp [applyOp, h1, h2, h3, h4]
        · by_cases h5 : op = "is_in"
          · cases v with
            | str s => exact .inl fun df => by simp [applyOp, h1, h2, h3, h4, h5]
            | strs l =>
              exact .inr ⟨fun r => l.contains (rowGet r col), fun df => by
                simp [applyOp, h1, h2, h3, h4, h5]⟩
          · exact .inr ⟨fun _ => true, fun df => by
              rw [applyOp_unrecognized op v col df h1 h2 h3 h4 h5,
                List.filter_true]⟩

theorem apply_conditions_shape (C : CondList) :
    (∃ e, ∀ df : Table, apply_conditions df C = .error e) ∨
    (∃ p : Row → Bool, ∀ df : Table, apply_conditions df C = .ok (df.filter p)) := by
  induction C with
  | nil => exact .inr ⟨fun _ => true, fun df => by simp [apply_conditions]⟩
  | cons entry rest ih =>
    obtain ⟨col, cv⟩ := entry
    cases cv with
    | none =>
      cases ih with
      | inl h =>
        obtain ⟨e, he⟩ := h
        exact .inl ⟨e, fun df => by simp [apply_conditions, he df]⟩
      | inr h =>
        obtain ⟨p, hp⟩ := h
        exact .inr ⟨p, fun df => by simp [apply_conditions, hp df]⟩
    | some ov =>
      obtain ⟨op, v⟩ := ov
      cases applyOp_shape op v col with
      | inl herr =>
        exact .inl ⟨.typeError, fun df => by simp [apply_conditions, herr df]⟩
      | inr hok =>
        obtain ⟨p, hp⟩ := hok
        cases ih with
        | inl h =>
          obtain ⟨e, he⟩ := h
          exact .inl ⟨e, fun df => by
            simp [apply_conditions, hp df, he (df.filter p)]⟩
        | inr h =>
          obtain ⟨q, hq⟩ := h
          refine .inr ⟨fun r => q r && p r, fun df => ?_⟩
          simp [apply_conditions, hp df, hq (df.filter p), List.filter_filter]

theorem apply_conditions_append (df : Table) (C1 C2 : CondList) :
    apply_conditions df (C1 ++ C2) =
      (apply_conditions df C1).bind fun d => apply_conditions d C2 := by
  induction C1 generalizing df with
  | nil => simp [apply_conditions, Except.bind]
  | cons entry rest ih =>
    obtain ⟨col, cv⟩ := entry
    cases cv with
    | none => simpa [apply_conditions] using ih df
    | some ov =>
      obtain ⟨op, v⟩ := ov
      cases happ : applyOp op v col df with
      | ok df2 => simpa [apply_conditions, happ] using ih df2
      | error e => simp [apply_conditions, happ, Except.bind]

/-- Claim C1 (counterexample): on a concrete table and a condition entry
whose operator `"equals"` is none of the five recognized operators,
`apply_conditions` returns a table (`Except.ok`), not an
`InvalidCondition` failure; indeed no such error exists anywhere in the
code. -/
theorem apply_conditions_unknown_op_cex :
    apply_conditions [[("Category", "Tcell")]]
      [("Category", some ("equals", .str "Tcell"))] =
      .ok [[("Category", "Tcell")]] := by rfl

/-- Claim C1 (amended): a condition entry whose operator is none of
`contains`, `not_contains`, `match`, `not_match`, `is_in` does not make
the Row Filter fail; the entry is silently ignored and the table is
returned unchanged. -/
theorem apply_conditions_unknown_op_silently_ignored (df : Table)
    (col op : String) (v : CondOperand) (h1 : op ≠ "contains")
    (h2 : op ≠ "not_contains") (h3 : op ≠ "match") (h4 : op ≠ "not_match")
    (h5 : op ≠ "is_in") :
    apply_conditions df [(col, some (op, v))] = .ok df := by
  simp [apply_conditions, applyOp_unrecognized op v col df h1 h2 h3 h4 h5]

/-- Claim C1 (witness). -/
theorem apply_conditions_unknown_op_silently_ignored_witness :
    apply_conditions [[("Allele", "HLA")]]
      [("Allele", some ("equals2", .str "H"))] = .ok [[("Allele", "HLA")]] :=
  apply_conditions_unknown_op_silently_ignored [[("Allele", "HLA")]]
    "Allele" "equals2" (.str "H") (by decide) (by decide) (by decide)
    (by decide) (by decide)

/-- Claim C9: an entry with an unrecognized operator raises no exception
and has no effect — filtering with the entry present anywhere in the
condition list gives exactly the result of filtering without it. -/
theorem apply_conditions_unrecognized_entry_no_effect (df : Table)
    (pre post : CondList) (col op : String) (v : CondOperand)
    (h1 : op ≠ "contains") (h2 : op ≠ "not_contains") (h3 : op ≠ "match")
    (h4 : op ≠ "not_match") (h5 : op ≠ "is_in") :
    apply_conditions df (pre ++ (col, some (op, v)) :: post) =
      apply_conditions df (pre ++ post) := by
  rw [apply_conditions_append, apply_conditions_append]
  cases apply_conditions df pre with
  | error e => rfl
  | ok d =>
    show apply_conditions d ((col, some (op, v)) :: post) =
      apply_conditions d post
    simp [apply_conditions, applyOp_unrecognized op v col d h1 h2 h3 h4 h5]

/-- Claim C9 (witness). -/
theorem apply_conditions_unrecognized_entry_no_effect_witness :
    apply_conditions [[("a", "x")]] [("a", some ("startswith", .str "z"))] =
      apply_conditions [[("a", "x")]] [] :=
  apply_conditions_unrecognized_entry_no_effect [[("a", "x")]] [] []
    "a" "startswith" (.str "z") (by decide) (by decide) (by decide)
    (by decide) (by decide)

/-- Claim C5: whenever the Row Filter returns a table, that table is an
order-preserving subsequence of the input rows — no row is added,
duplicated or reordered. -/
theorem apply_conditions_sublist (T : Table) (C : CondList) (T2 : Table)
    (h : apply_conditions T C = .ok T2) : T2.Sublist T := by
  cases apply_conditions_shape C with
  | inl he =>
    obtain ⟨e, he⟩ := he
    rw [he T] at h
    exact absurd h (by simp)
  | inr hp =>
    obtain ⟨p, hp⟩ := hp
    rw [hp T] at h
    injection h with h
    rw [← h]
    exact List.filter_sublist T

/-- Claim C5 (witness). -/
theorem apply_conditions_sublist_witness :
    apply_conditions [[("a", "x")], [("a", "y")]]
        [("a", some ("match", .str "x"))] = .ok [[("a", "x")]] ∧
      ([[("a", "x")]] : Table).Sublist [[("a", "x")], [("a", "y")]] :=
  ⟨rfl, apply_conditions_sublist [[("a", "x")], [("a", "y")]]
    [("a", some ("match", .str "x"))] [[("a", "x")]] rfl⟩

/-- Claim C6: predicate semantics of the five recognized operators, for a
column `col` and operand `v` (resp. operand list `vs`): `contains` keeps
the rows whose cell contains `v` as a literal substring (no pattern
semantics), `match` keeps the rows whose cell equals `v` exactly, `is_in`
keeps the rows whose cell is a member of the operand list, and
`not_contains` / `not_match` keep exactly the complementary rows. -/
theorem applyOp_operator_semantics (df : Table) (col v : String)
    (vs : List String) :
    applyOp "contains" (.str v) col df =
        .ok (df.filter fun r => strContains (rowGet r col) v) ∧
      applyOp "not_contains" (.str v) col df =
        .ok (df.filter fun r => !(strContains (rowGet r col) v)) ∧
      applyOp "match" (.str v) col df =
        .ok (df.filter fun r => rowGet r col == v) ∧
      applyOp "not_match" (.str v) col df =
        .ok (df.filter fun r => !(rowGet r col == v)) ∧
      applyOp "is_in" (.strs vs) col df =
        .ok (df.filter fun r => vs.contains (rowGet r col)) :=
  ⟨rfl, rfl, rfl, rfl, rfl⟩

/-- Claim C7: filtering twice with the same condition list is the same as
filtering once. -/
theorem apply_conditions_idempotent (T : Table) (C : CondList) (T2 : Table)
    (h : apply_conditions T C = .ok T2) :
    apply_conditions T2 C = .ok T2 := by
  cases apply_conditions_shape C with
  | inl he =>
    obtain ⟨e, he⟩ := he
    rw [he T] at h
    exact absurd h (by simp)
  | inr hp =>
    obtain ⟨p, hp⟩ := hp
    rw [hp T] at h
    injection h with h
    rw [← h, hp (T.filter p), List.filter_filter]
    have hpp : (fun a => p a && p a) = p := funext fun a => Bool.and_self (p a)
    rw [hpp]

/-- Claim C7 (witness). -/
theorem apply_conditions_idempotent_witness :
    apply_conditions [[("b", "u")]] [("b", some ("not_match", .str "v"))] =
      .ok [[("b", "u")]] :=
  apply_conditions_idempotent [[("b", "u")], [("b", "v")]]
    [("b", some ("not_match", .str "v"))] [[("b", "u")]] rfl

/-! Helper lemmas about the Merger. -/

theorem lookup_append (k : String) (l1 l2 : List (String × List String)) :
    List.lookup k (l1 ++ l2) = (List.lookup k l1).or (List.lookup k l2) := by
  induction l1 with
  | nil => simp [List.lookup]
  | cons kv t ih =>
    obtain ⟨a, b⟩ := kv
    cases hka : k == a <;> simp [List.lookup, hka, ih]

theorem lookup_override_map (d1 d2 : List (String × List String))
    (k : String) :
    List.lookup k (d1.map fun kv => (kv.1, (List.lookup kv.1 d2).getD kv.2)) =
      (List.lookup k d1).map fun w => (List.lookup k d2).getD w := by
  induction d1 with
  | nil => rfl
  | cons kv t ih =>
    obtain ⟨a, b⟩ := kv
    cases hka : k == a with
    | true =>
      have : k = a := by simpa using hka
      subst this
      simp [List.lookup]
    | false => simp [List.lookup, hka, ih]

theorem lookup_new_keys (d1 d2 : List (String × List String)) (k : String)
    (hk : List.lookup k d1 = none) :
    List.lookup k (d2.filter fun kv => (List.lookup kv.1 d1).isNone) =
      List.lookup k d2 := by
  induction d2 with
  | nil => rfl
  | cons kv t ih =>
    obtain ⟨a, b⟩ := kv
    cases hka : k == a with
    | true =>
      have : k = a := by simpa using hka
      subst this
      simp [List.filter_cons, hk, List.lookup]
    | false =>
      cases hfa : (List.lookup a d1).isNone <;>
        simp [List.filter_cons, hfa, List.lookup, hka, ih]

/-- Claim C4: `merge_peptide_data` looks up to the override map first
(`dict(dict1, **dict2)`): the merged binding at any key is the override
map's binding when it has one and the base map's binding otherwise, so the
key set is the union and at a key present in both the override value
replaces the base value outright — no concatenation of peptide lists.
Merging with an empty map on either side is the identity. -/
theorem merge_peptide_data_spec (d1 d2 : List (String × List String))
    (k : String) :
    List.lookup k (merge_peptide_data d1 d2) =
        (List.lookup k d2).or (List.lookup k d1) ∧
      (List.lookup k (merge_peptide_data d1 d2)).isSome =
        ((List.lookup k d1).isSome || (List.lookup k d2).isSome) ∧
      merge_peptide_data d1 [] = d1 ∧
      merge_peptide_data [] d2 = d2 := by
  have hmain : List.lookup k (merge_peptide_data d1 d2) =
      (List.lookup k d2).or (List.lookup k d1) := by
    rw [merge_peptide_data, lookup_append, lookup_override_map]
    cases h1 : List.lookup k d1 with
    | none =>
      rw [lookup_new_keys d1 d2 k h1]
      cases List.lookup k d2 <;> simp [Option.or]
    | some w =>
      cases h2 : List.lookup k d2 <;> simp [Option.or, h2]
  refine ⟨hmain, ?_, ?_, ?_⟩
  · rw [hmain]
    cases List.lookup k d1 <;> cases List.lookup k d2 <;> simp [Option.or]
  · simp [merge_peptide_data, List.lookup]
  · simp [merge_peptide_data, List.lookup]

/-- Claim C2 (evaluation at the failing input): `create_dictionary`
deduplicates the (peptide, uniprot_id) pairs BEFORE rewriting each
uniprot value to its trailing path segment, so two distinct identifiers
with the same trailing segment both survive deduplication and the shared
Protein Code is mapped to a list repeating the same peptide — contrary to
the function's own docstring ("a list of non-repeated peptides for that
uniprot code"). -/
theorem create_dictionary_repeats_peptide_on_code_collision :
    create_dictionary
        [[("peptide_sequence", "AAA"), ("uniprot_id", "http://a/P1")],
         [("peptide_sequence", "AAA"), ("uniprot_id", "http://b/P1")]] =
        [("P1", ["AAA", "AAA"])] ∧
      ¬ (["AAA", "AAA"] : List String).Nodup :=
  ⟨by rfl, by decide⟩

/-! Helper lemmas about the generic-mode identifier rewrite. -/

theorem reSubAux_all_word (cs : List Char) :
    ∀ run : List Char, cs.all isWordChar = true →
      reSubAux run cs = flushRun (run ++ cs) := by
  induction cs with
  | nil => intro run _; simp [reSubAux]
  | cons c cs ih =>
    intro run hall
    simp only [List.all_cons, Bool.and_eq_true] at hall
    obtain ⟨hc, hcs⟩ := hall
    rw [reSubAux, if_pos hc, ih (run ++ [c]) hcs]
    simp

/-- Claim C3 (counterexample): a `uniprot_id` value containing a non-word
character is NOT left structurally intact and is NOT rewritten by
substituting only its leading word-token: `re.sub` wraps every
word-character run, mangling the value. -/
theorem uniprotSub_nonword_value_cex :
    uniprotSub "a/b" =
        "http://www.uniprot.org/uniprot/a/http://www.uniprot.org/uniprot/b" ∧
      uniprotSub "a/b" ≠ "a/b" ∧
      uniprotSub "a/b" ≠ "http://www.uniprot.org/uniprot/a/b" :=
  ⟨by rfl, by decide, by decide⟩

/-- Claim C3 (amended): the rewrite wraps EVERY maximal word-character run
of the `uniprot_id` value as `http://www.uniprot.org/uniprot/<run>` in
place; hence a bare word-character accession is rewritten to exactly the
canonical URI, while a value containing non-word characters (e.g. an
existing URI) has each of its word tokens substituted and is not left
structurally intact. -/
theorem uniprotSub_bare_accession (w : String) (hne : w ≠ "")
    (hw : w.data.all isWordChar = true) :
    uniprotSub w = uriPrefix ++ w := by
  have hd : w.data ≠ [] := by
    intro h
    apply hne
    cases w with
    | mk data => simp at h; rw [h]
  rw [uniprotSub, reSubAux_all_word w.data [] hw]
  simp only [List.nil_append]
  rw [flushRun, if_neg (by simpa using hd)]
  cases w with
  | mk data => rfl

/-- Claim C3 (witness): the bare accession of the spec's generic-mode
end-to-end row is wrapped into the canonical URI. -/
theorem uniprotSub_bare_accession_witness :
    uniprotSub "P99999" = uriPrefix ++ "P99999" :=
  uniprotSub_bare_accession "P99999" (by decide) (by decide)

/-- Claim C10: calling the orchestrator in IEDB mode with
`conditions_dictionary = None` fails with the `AttributeError` raised
while assembling the column list (`list(None.keys())`) inside
`generate_df`, before any row is read, filtered or returned — the same
error for every input table; and whenever the condition dictionary is
not `None`, that failing branch is unreachable: `generate_df` in IEDB
mode then always returns a table. -/
theorem extract_peptide_data_none_conditions_fails (raw : RawTable) :
    extract_peptide_data raw none true = .error .attributeError ∧
      generate_df raw none true = .error .attributeError ∧
      ∀ cs : CondList, ∃ df : Table, generate_df raw (some cs) true = .ok df :=
  ⟨rfl, rfl, fun cs => ⟨generate_df_iedb cs raw, rfl⟩⟩

/-! Helper lemmas about the Loader's missing-value handling. -/

theorem rowAllSome_of_none_cell (rr : RawRow) (c : String)
    (h : (c, (none : Option String)) ∈ rr) : rowAllSome rr = none := by
  induction rr with
  | nil => cases h
  | cons cv rest ih =>
    obtain ⟨c2, oc⟩ := cv
    cases h with
    | head => rfl
    | tail _ hmem =>
      cases oc with
      | none => rfl
      | some v => simp [rowAllSome, ih hmem]

theorem subCell_none (c : String) :
    subCell (c, (none : Option String)) = (c, none) := by
  rw [subCell]
  split <;> rfl

theorem renameCell_snd (cv : String × Option String) :
    (renameCell cv).2 = cv.2 := by
  rw [renameCell]
  split
  · rfl
  · split <;> rfl

theorem splitCell_none (cv : String × Option String) (h : cv.2 = none) :
    (splitCell cv).2 = none := by
  rw [splitCell]
  split
  · simp [h]
  · exact h

/-- Claim C8: in both loading modes every row holding a missing value
(`NaN`) in a loaded column is dropped by `generate_df` and the survivors
keep their order under dense positional indexing: a row belongs to the
loaded table exactly when it is the all-cells-present image of an input
row; a row with a missing cell (in the generic mode), or with a missing
cell in a column named by the condition dictionary (in the IEDB mode),
has no image in the loaded table; and the Row Filter only ever keeps rows
of the table it is given, so a dropped row reaches no downstream
output. -/
theorem generate_df_drops_missing_rows (raw : RawTable) (cs : CondList) :
    (∀ r : Row, r ∈ generate_df_generic raw ↔
        ∃ rr ∈ raw, rowAllSome (genericPrepRow rr) = some r) ∧
      (∀ r : Row, r ∈ generate_df_iedb cs raw ↔
        ∃ rr ∈ raw, rowAllSome (iedbPrepRow cs rr) = some r) ∧
      (∀ (rr : RawRow) (c : String), (c, (none : Option String)) ∈ rr →
        rowAllSome (genericPrepRow rr) = none) ∧
      (∀ (rr : RawRow) (c : String), (c, (none : Option String)) ∈ rr →
        (cs.map Prod.fst).contains c = true →
        rowAllSome (iedbPrepRow cs rr) = none) ∧
      (∀ (df : Table) (conds : CondList) (df2 : Table),
        apply_conditions df conds = .ok df2 → df2.Sublist df) := by
  refine ⟨?_, ?_, ?_, ?_, ?_⟩
  · intro r
    simp [generate_df_generic, dropna, List.mem_filterMap]
  · intro r
    simp [generate_df_iedb, dropna, List.mem_filterMap]
  · intro rr c hmem
    apply rowAllSome_of_none_cell _ c
    rw [genericPrepRow, ← subCell_none c]
    exact List.mem_map_of_mem subCell hmem
  · intro rr c hmem hcol
    have h1 : (c, (none : Option String)) ∈ usecolsRow cs rr := by
      rw [usecolsRow]
      exact List.mem_filter.mpr ⟨hmem, hcol⟩
    have h3 : splitCell (renameCell (c, none)) ∈ iedbPrepRow cs rr :=
      List.mem_map_of_mem splitCell (List.mem_map_of_mem renameCell h1)
    have hsnd : (splitCell (renameCell (c, none))).2 = none :=
      splitCell_none _ (renameCell_snd (c, none))
    apply rowAllSome_of_none_cell _ (splitCell (renameCell (c, none))).1
    have h4 : ((splitCell (renameCell (c, none))).1, (none : Option String)) =
        splitCell (renameCell (c, none)) := Prod.ext rfl hsnd.symm
    rw [h4]
    exact h3
  · intro df conds df2 h
    cases apply_conditions_shape conds with
    | inl he =>
      obtain ⟨e, he⟩ := he
      rw [he df] at h
      exact absurd h (by simp)
    | inr hp =>
      obtain ⟨p, hp⟩ := hp
      rw [hp df] at h
      injection h with h
      rw [← h]
      exact List.filter_sublist df

/-- Claim C8 (witness): a generic-mode row whose `uniprot_id` cell is
missing has no all-cells-present image, so it is dropped. -/
theorem generate_df_drops_missing_rows_witness :
    rowAllSome (genericPrepRow [("uniprot_id", (none : Option String))]) =
      none :=
  (generate_df_drops_missing_rows [] []).2.2.1
    [("uniprot_id", none)] "uniprot_id" (by decide)

end NetCleave